import Mathlib

set_option autoImplicit false

/-!
Verification of the priority-classification and alert-dispatch core of the
email-intelligence-platform repository.

Texts (Python `str`) are modelled as `List Char`.  The regex fragment the
code uses is `re.search(rf"\b{re.escape(kw)}\b", text)`: a literal keyword
surrounded by word boundaries, searched anywhere in the text.  `\b` holds at
a position exactly when the word-character status of the character before
differs from the one at the position (out of range counting as non-word);
`\w` is modelled as letters, digits and underscore, which covers the ASCII
range the keyword rules use.  `str.lower()` is modelled with `Char.toLower`.

External collaborators (the language-model backend, the Twilio client and
transport, the Bitly shortener, the SQLite file) are parameters of the
embedded functions; a Python call that may raise is modelled as
`Except Str _`, with `.error` carrying `str(e)`.
-/

abbrev Str := List Char

/-- `str.lower()`. -/
def lc (s : Str) : Str := s.map Char.toLower

/-- A word character in the sense of the regex `\w` / `\b`. -/
def isWordChar (c : Char) : Bool := c.isAlphanum || c == '_'

/-- Word-character status of the character at position `p` of `text`
(out of range counts as non-word). -/
def wordAt (text : Str) (p : Nat) : Bool :=
  match text[p]? with
  | some c => isWordChar c
  | none => false

/-- Word-character status of the character just before position `p`
(non-word at the start of the text). -/
def wordBefore (text : Str) (p : Nat) : Bool :=
  match p with
  | 0 => false
  | q + 1 => wordAt text q

/-- The regex word boundary `\b` holds at position `p` of `text`. -/
def boundaryAt (text : Str) (p : Nat) : Bool :=
  wordBefore text p != wordAt text p

/-- The pattern `\b<kw>\b` (with `kw` a literal, cf. `re.escape`) matches
`text` at position `i`. -/
def matchesAt (kw text : Str) (i : Nat) : Bool :=
  kw.isPrefixOf (text.drop i) && boundaryAt text i && boundaryAt text (i + kw.length)

/-- `re.search(rf"\b{re.escape(kw)}\b", text)` finds a match somewhere. -/
def wholeWordSearch (kw text : Str) : Bool :=
  (List.range (text.length + 1)).any (matchesAt kw text)

/-- Number of distinct positions at which `\b<kw>\b` matches `text`. -/
def matchCount (kw text : Str) : Nat :=
  ((List.range (text.length + 1)).filter (matchesAt kw text)).length

/-- The raw shape of `configurations/priority_rules.json` as the module reads
it: a map from category name to keyword list under `"high_priority"`, a list
under `"low_priority"`, and an optional `"threshold"`. -/
structure PriorityRulesJson where
  high_priority : List (Str × List Str)
  low_priority : List Str
  threshold : Option Int

/-- The module-level configuration derived from the JSON file:
`HIGH_PRIORITY_KEYWORDS` (all categories flattened, in order),
`LOW_PRIORITY_TERMS`, and `THRESHOLD = rules.get("threshold", 2)`. -/
structure KeywordRules where
  highPriorityKeywords : List Str
  lowPriorityTerms : List Str
  threshold : Int
deriving DecidableEq

/-- `HIGH_PRIORITY_KEYWORDS.extend(keywords)` over the categories, plus the
threshold default of 2. -/
def loadRules (r : PriorityRulesJson) : KeywordRules :=
  { highPriorityKeywords :=
      r.high_priority.foldl (fun acc cat => acc ++ cat.2) []
    lowPriorityTerms := r.low_priority
    threshold := r.threshold.getD 2 }

/-- The score accumulated by `is_high_priority` in
`classifier/smart_email_classifier.py`: starting from 0, `+= 2` for every
entry of `HIGH_PRIORITY_KEYWORDS` whose lowercased form matches the
lowercased text as a whole word, then `-= 3` for every entry of
`LOW_PRIORITY_TERMS` that does. -/
def score (r : KeywordRules) (text : Str) : Int :=
  let text_lower := lc text
  let s := r.highPriorityKeywords.foldl
    (fun s keyword => if wholeWordSearch (lc keyword) text_lower then s + 2 else s) 0
  r.lowPriorityTerms.foldl
    (fun s bad_word => if wholeWordSearch (lc bad_word) text_lower then s - 3 else s) s

/-- `is_high_priority`: `return score >= THRESHOLD`. -/
def is_high_priority (r : KeywordRules) (text : Str) : Bool :=
  decide (r.threshold ≤ score r text)

/-- An email record as the pipeline passes it around (a Python dict).
`fromAddr` is the `"from"` key.  Keys the code reads with `.get` and a
default are total fields here; `priority` is absent (`none`) until the
classifier sets it, and `timestamp` is absent for emails coming from the
reader. -/
structure Email where
  id : Str := []
  fromAddr : Str := []
  subject : Str := []
  body : Str := []
  date : Option Str := none
  timestamp : Option Str := none
  priority : Option Str := none
deriving DecidableEq

/-- `classify_email_python`: rule-based classification of
`f"{subject} {body}"`. -/
def classify_email_python (r : KeywordRules) (email : Email) : Str :=
  let combined := email.subject ++ ' ' :: email.body
  if is_high_priority r combined then ("High Priority".data) else ("Low Priority".data)

/-- The string that `llm_gateway/azure_openai_llm.py` returns from its
`except` branch when the model invocation raises. -/
def LLM_ERROR_FALLBACK : Str :=
  ("\x7b\"priority\": \"Low Priority\", \"reason\": \"LLM error - fallback applied.\"\x7d".data)

/-- `classify_with_llm` in `llm_gateway/azure_openai_llm.py`.
`mkClient` models the `ChatOpenAI(...)` construction, which happens before
the `try` block: if it raises, the exception propagates to the caller.
`invoke` models `llm.invoke(messages)`; if it raises, the local `except`
catches it and the function returns the fixed `LLM_ERROR_FALLBACK` string
instead. -/
def classify_with_llm (mkClient : Except Str Unit) (invoke : Str → Except Str Str)
    (prompt : Str) : Except Str Str :=
  match mkClient with
  | .error e => .error e
  | .ok _ =>
    match invoke prompt with
    | .ok response => .ok response
    | .error _ => .ok LLM_ERROR_FALLBACK

/-- `EMAIL_CLASSIFIER_PROMPTS` from `prompts/email_agent_prompts.py`. -/
def EMAIL_CLASSIFIER_PROMPTS : Str :=
  ("\nYou are an intelligent email classifier designed to prioritize important messages.\nBased on the email content, determine if it is \"High Priority\" or \"Low Priority\".\n\nConsider:\n- High Priority: Important work emails, recruiter messages, job opportunities, interviews, client or manager emails, deadlines, project updates.\n- Low Priority: Newsletters, ads, social updates, automated notifications.\n\nRespond strictly in JSON format:\n\x7b\n  \"priority\": \"<High Priority or Low Priority>\",\n  \"reason\": \"<brief reason for classification>\"\n\x7d\n".data)

/-- Python `str.strip()`: whitespace removed from both ends. -/
def pyStrip (s : Str) : Str :=
  ((s.dropWhile Char.isWhitespace).reverse.dropWhile Char.isWhitespace).reverse

/-- Python `needle in haystack` on strings: substring containment. -/
def pyIn (needle haystack : Str) : Bool := decide (needle <:+: haystack)

/-- The prompt `classify_email_llm` builds:
`EMAIL_CLASSIFIER_PROMPTS + f" Subject: {subject} \n" + f" Body: {body}\n"`. -/
def llmPrompt (email : Email) : Str :=
  EMAIL_CLASSIFIER_PROMPTS ++ (" Subject: ".data) ++ email.subject ++ (" \n".data)
    ++ (" Body: ".data) ++ email.body ++ ("\n".data)

/-- `classify_email_llm`: call the adapter, normalize with
`.strip().lower()`, test for the substring `"high"`, then `"low"`; on an
ambiguous response or on an exception from the adapter call, fall back to
`classify_email_python` on the same email.  The `adapter` parameter is the
`classify_with_llm` call (an exception from it is the `except` branch). -/
def classify_email_llm (adapter : Str → Except Str Str) (r : KeywordRules)
    (email : Email) : Str :=
  match adapter (llmPrompt email) with
  | .ok raw =>
    let label := lc (pyStrip raw)
    if pyIn ("high".data) label then ("High Priority".data)
    else if pyIn ("low".data) label then ("Low Priority".data)
    else classify_email_python r email
  | .error _ => classify_email_python r email

/-- `classify_emails_bulk`: `mode = CLASSIFICATION_MODE.lower()`; each email
gets its `priority` key set by the llm path when the mode is `"llm"`, by the
python path otherwise, preserving input order. -/
def classify_emails_bulk (classification_mode : Str) (adapter : Str → Except Str Str)
    (r : KeywordRules) (emails : List Email) : List Email :=
  let mode := lc classification_mode
  emails.map fun e =>
    if mode == ("llm".data) then { e with priority := some (classify_email_llm adapter r e) }
    else { e with priority := some (classify_email_python r e) }

/-- `NOTIFICATION_COOLDOWN = timedelta(minutes=15)`, in seconds; timestamps
are seconds as well. -/
def NOTIFICATION_COOLDOWN : Nat := 15 * 60

/-- The mutable state of `notifiers/whatsapp_notifiers.py` plus ghost
counters: `cache` is `notification_cache` (newest binding first), `sends`
counts invocations of `client.messages.create` for alerts, and
`expiryNotices` counts invocations for the sandbox-expiry notice. -/
structure NotifierState where
  cache : List (Str × Nat) := []
  sends : Nat := 0
  expiryNotices : Nat := 0
deriving DecidableEq

/-- `can_send_notification`: blocked when a previous send for this sender is
less than the cooldown ago (with `now` earlier than the recorded time also
giving a negative timedelta, hence blocked — `Nat` subtraction matches);
otherwise the cache is updated to `now` and the send is allowed. -/
def can_send_notification (now : Nat) (sender : Str) (cache : List (Str × Nat)) :
    Bool × List (Str × Nat) :=
  match cache.lookup sender with
  | some last_sent =>
    if now - last_sent < NOTIFICATION_COOLDOWN then (false, cache)
    else (true, (sender, now) :: cache)
  | none => (true, (sender, now) :: cache)

/-- `MAX_BODY_LENGTH = 600`. -/
def MAX_BODY_LENGTH : Nat := 600

/-- The WhatsApp message template built by `send_whatsapp_message`, with the
snippet truncated at `MAX_BODY_LENGTH` and the optional Bitly link. -/
def buildAlertBody (subject sender priority snippet : Str) (received_time : Option Str)
    (now_str : Str) (gmail_short_link : Option Str) : Str :=
  let truncated := snippet.take MAX_BODY_LENGTH ++
    (if MAX_BODY_LENGTH < snippet.length then ("\n\n...(truncated preview)".data) else [])
  let base := ("🚨 *High Priority Email Alert*\n\n📧 *From:* ".data) ++ sender ++
    ("\n🗒️ *Subject:* ".data) ++ subject ++
    ("\n⚡ *Priority:* ".data) ++ priority ++
    ("\n\n📝 *Body Preview:*\n".data) ++ truncated ++
    ("\n\n📅 *Received:* ".data) ++ received_time.getD now_str ++ ("\n".data)
  let withLink :=
    match gmail_short_link with
    | some link => base ++ ("\n📨 *Open in Gmail (App / Web):* ".data) ++ link ++ ("\n".data)
    | none => base
  withLink ++ ("\n🔕 Reply STOP to mute alerts temporarily.".data)

/-- The external collaborators of `send_whatsapp_message`:
`creds_ok` is `all([TWILIO_ACCOUNT_SID, TWILIO_AUTH_TOKEN,
TWILIO_WHATSAPP_FROM, TWILIO_WHATSAPP_TO])`; `clientInit` models
`Client(sid, token)` (inside the `try`); `shorten` models
`shorten_gmail_link`, which catches its own failures and returns `None`;
`transport` models `client.messages.create` for the n-th alert attempt,
`.error` carrying `str(e)` of the raised exception. -/
structure TwilioEnv where
  creds_ok : Bool
  clientInit : Except Str Unit
  shorten : Str → Option Str
  transport : Nat → Except Str Str

/-- The state transformer of `send_whatsapp_message`.  Every path of the
source returns normally: the credential check and the cooldown check are
guarded early returns, and the whole remainder (client construction, link
shortening, message build, transport call) sits inside a blanket
`try/except Exception` whose handler just logs.  The two `match`es on
`clientInit` and on `transport` are that handler: both outcomes continue. -/
def send_whatsapp_message_run (env : TwilioEnv) (now : Nat) (now_str : Str)
    (subject sender priority snippet : Str) (received_time : Option Str)
    (st : NotifierState) : NotifierState :=
  if !env.creds_ok then st
  else
    match can_send_notification now sender st.cache with
    | (false, cache2) => { st with cache := cache2 }
    | (true, cache2) =>
      let st1 := { st with cache := cache2 }
      match env.clientInit with
      | .error _ => st1
      | .ok _ =>
        let link := env.shorten subject
        let _body := buildAlertBody subject sender priority snippet received_time now_str link
        let st2 := { st1 with sends := st1.sends + 1 }
        match env.transport st1.sends with
        | .ok _ => st2
        | .error _ => st2

/-- `send_whatsapp_message` as its caller sees it: a Python callable that
could in principle raise, but never does (see
`send_whatsapp_message_run`). -/
def send_whatsapp_message (env : TwilioEnv) (now : Nat) (now_str : Str)
    (subject sender priority snippet : Str) (received_time : Option Str)
    (st : NotifierState) : Except Str NotifierState :=
  .ok (send_whatsapp_message_run env now now_str subject sender priority snippet received_time st)

/-- `send_sandbox_expiry_notification`: builds the client and sends the
rejoin instructions with no `try/except`, so either failure propagates. -/
def send_sandbox_expiry_notification (expiryInit : Except Str Unit)
    (expiryTransport : Except Str Str) (st : NotifierState) : Except Str NotifierState :=
  match expiryInit with
  | .error e => .error e
  | .ok _ =>
    let st1 := { st with expiryNotices := st.expiryNotices + 1 }
    match expiryTransport with
    | .ok _ => .ok st1
    | .error e => .error e

/-- Result of the step-4 notification loop of `run_pipeline` in `main.py`:
final notifier state, the reported `alerts_sent`, whether the loop ended via
the `break` in the 63016 branch, and an exception escaping the loop (which
would abort the pipeline). -/
structure NotifyOutcome where
  st : NotifierState
  alerts_sent : Nat
  halted : Bool
  fatal : Option Str
deriving DecidableEq

/-- The body of the `for email in high_priority` loop of `run_pipeline`:
try the send and count it; on an exception whose text contains `"63016"`,
send the sandbox-expiry notice and `break`; on any other exception, log and
continue with the next message. -/
def run_pipeline_notify_go (env : TwilioEnv) (expiryInit : Except Str Unit)
    (expiryTransport : Except Str Str) (clock : Nat → Nat) (clock_str : Nat → Str) :
    List Email → Nat → NotifierState → Nat → NotifyOutcome
  | [], _, st, alerts => ⟨st, alerts, false, none⟩
  | email :: rest, i, st, alerts =>
    match send_whatsapp_message env (clock i) (clock_str i) email.subject email.fromAddr
        (email.priority.getD []) email.body email.date st with
    | .ok st1 => run_pipeline_notify_go env expiryInit expiryTransport clock clock_str
        rest (i + 1) st1 (alerts + 1)
    | .error error_msg =>
      if pyIn ("63016".data) error_msg then
        match send_sandbox_expiry_notification expiryInit expiryTransport st with
        | .ok st1 => ⟨st1, alerts, true, none⟩
        | .error e => ⟨st, alerts, true, some e⟩
      else run_pipeline_notify_go env expiryInit expiryTransport clock clock_str
        rest (i + 1) st alerts

/-- Step 4 of `run_pipeline`: filter the classified emails to the
high-priority ones and run the notification loop over them. -/
def run_pipeline_notify (env : TwilioEnv) (expiryInit : Except Str Unit)
    (expiryTransport : Except Str Str) (clock : Nat → Nat) (clock_str : Nat → Str)
    (classified_emails : List Email) (st0 : NotifierState) : NotifyOutcome :=
  let high_priority := classified_emails.filter
    (fun e => e.priority == some ("High Priority".data))
  run_pipeline_notify_go env expiryInit expiryTransport clock clock_str high_priority 0 st0 0

/-- A row of the `emails` table in `databases/email_db.py`. -/
structure EmailRow where
  id : Str
  sender : Str
  subject : Str
  body : Str
  date : Str
  timestamp : Str
  priority : Str
deriving DecidableEq

/-- `email_exists`: `SELECT 1 FROM emails WHERE id = ?` on a fresh
connection, which sees only committed rows. -/
def email_exists (db : List EmailRow) (email_id : Str) : Bool :=
  db.any (fun row => row.id == email_id)

/-- The row `insert_emails` writes for one email, with the `.get` defaults:
`timestamp` defaults to `datetime.now().isoformat()` and `priority` to
`"Unclassified"`. -/
def emailRow (nowIso : Str) (email : Email) : EmailRow :=
  { id := email.id
    sender := email.fromAddr
    subject := email.subject
    body := email.body
    date := email.date.getD []
    timestamp := email.timestamp.getD nowIso
    priority := email.priority.getD ("Unclassified".data) }

/-- `insert_emails`: for each email, check existence by id with
`email_exists` — a separate connection, so only rows committed before this
call are visible, never the rows pending on this call's own cursor — and
count it as skipped if found; otherwise `INSERT`, which the pending rows DO
constrain (the inserting connection sees its own uncommitted rows), so a
duplicate id within the batch raises the UNIQUE-constraint error that the
`except` catches and logs, incrementing neither counter.  All pending rows
commit together at the end.  Returns (table after commit, new_count,
skipped_count). -/
def insert_emails (db : List EmailRow) (nowIso : Str) (emails : List Email) :
    List EmailRow × Nat × Nat :=
  let final := emails.foldl
    (fun (acc : List EmailRow × Nat × Nat) email =>
      let (pending, new_count, skipped_count) := acc
      if email_exists db email.id then (pending, new_count, skipped_count + 1)
      else if (db ++ pending).any (fun row => row.id == email.id) then
        (pending, new_count, skipped_count)
      else (pending ++ [emailRow nowIso email], new_count + 1, skipped_count))
    ([], 0, 0)
  (db ++ final.1, final.2.1, final.2.2)

/-- A single word in the regex sense: nonempty and made of word characters
only (so any occurrence of it in a text lies inside one word-character
run). -/
def isSingleWord (w : Str) : Bool := !w.isEmpty && w.all isWordChar

/-! Concrete inputs used by counterexamples and witnesses. -/

/-- The keyword rules of the spec scenario:
high `["interview", "offer"]`, low `["newsletter"]`, threshold 2. -/
def ruleSet1 : KeywordRules :=
  ⟨[("interview".data), ("offer".data)], [("newsletter".data)], 2⟩

/-- An email the Rule Scorer marks high priority under `ruleSet1`. -/
def emailInterview : Email :=
  { id := ("m1".data), fromAddr := ("hr@co.example".data),
    subject := ("Interview offer next week".data), body := [] }

/-- Rules with a multi-word high-priority keyword, for the score
monotonicity counterexample. -/
def rulesMultiWord : KeywordRules :=
  ⟨[("c b".data), ("x c b".data)], [("b".data)], 2⟩

/-- Single-word rules satisfying the monotonicity side conditions. -/
def rulesSingleWord : KeywordRules :=
  ⟨[("interview".data)], [("newsletter".data)], 2⟩

/-- A Twilio environment with credentials present and a transport that
succeeds. -/
def envOk : TwilioEnv :=
  { creds_ok := true, clientInit := .ok (), shorten := fun _ => none,
    transport := fun _ => .ok ("SM0".data) }

/-- A Twilio environment whose transport raises the Twilio sandbox
session-expired error (code 63016) on every alert send. -/
def envSandboxExpired : TwilioEnv :=
  { creds_ok := true, clientInit := .ok (), shorten := fun _ => none,
    transport := fun _ => .error ("Unable to create record: error 63016, channel session expired".data) }

/-- Two high-priority emails from distinct senders. -/
def emailAlertA : Email :=
  { id := ("a1".data), fromAddr := ("alice@x.com".data), subject := ("urgent a".data),
    body := ("hello".data), priority := some ("High Priority".data) }

/-- Second high-priority email, different sender. -/
def emailAlertB : Email :=
  { id := ("b1".data), fromAddr := ("bob@x.com".data), subject := ("urgent b".data),
    body := ("world".data), priority := some ("High Priority".data) }

/-- A classified email for the dedup-store scenarios. -/
def emailDup : Email :=
  { id := ("m1".data), fromAddr := ("a@x.com".data), subject := ("s".data),
    body := ("b".data), priority := some ("High Priority".data) }

/-! General helper lemmas. -/

theorem foldl_if_add {α : Type} (p : α → Bool) (l : List α) (a : Int) :
    l.foldl (fun s x => if p x then s + 2 else s) a
      = a + 2 * ((l.filter p).length : Int) := by
  induction l generalizing a with
  | nil => simp
  | cons x xs ih =>
    by_cases h : p x = true <;>
      simp only [List.foldl_cons, List.filter_cons, h, if_true, if_false,
        Bool.false_eq_true, ih, List.length_cons] <;> push_cast <;> ring

theorem foldl_if_sub {α : Type} (p : α → Bool) (l : List α) (a : Int) :
    l.foldl (fun s x => if p x then s - 3 else s) a
      = a - 3 * ((l.filter p).length : Int) := by
  induction l generalizing a with
  | nil => simp
  | cons x xs ih =>
    by_cases h : p x = true <;>
      simp only [List.foldl_cons, List.filter_cons, h, if_true, if_false,
        Bool.false_eq_true, ih, List.length_cons] <;> push_cast <;> ring

/-- The score is per-entry: +2 for every high-priority entry matching at
least once, -3 for every low-priority entry matching at least once. -/
theorem score_eq_counts (r : KeywordRules) (text : Str) :
    score r text =
      2 * ((r.highPriorityKeywords.filter
              (fun kw => wholeWordSearch (lc kw) (lc text))).length : Int)
        - 3 * ((r.lowPriorityTerms.filter
              (fun kw => wholeWordSearch (lc kw) (lc text))).length : Int) := by
  show (r.highPriorityKeywords.foldl
      (fun s keyword => if wholeWordSearch (lc keyword) (lc text) then s + 2 else s) 0
    |> r.lowPriorityTerms.foldl
      (fun s bad_word => if wholeWordSearch (lc bad_word) (lc text) then s - 3 else s)) = _
  rw [foldl_if_sub, foldl_if_add]
  ring

/-- C8: with rules high = ["interview", "offer"], low = ["newsletter"],
threshold = 2, the text "Interview offer next week" scores 4 and is
classified high priority, and "Weekly newsletter digest" scores -3 and is
classified low priority; in general `is_high_priority` is true iff the
score reaches the threshold, and a rules file without a `"threshold"` key
gets the default 2. -/
theorem c8_scoring_scenarios_and_threshold :
    score ruleSet1 ("Interview offer next week".data) = 4 ∧
    is_high_priority ruleSet1 ("Interview offer next week".data) = true ∧
    score ruleSet1 ("Weekly newsletter digest".data) = -3 ∧
    is_high_priority ruleSet1 ("Weekly newsletter digest".data) = false ∧
    (∀ (r : KeywordRules) (text : Str),
      is_high_priority r text = decide (r.threshold ≤ score r text)) ∧
    (∀ (hp : List (Str × List Str)) (lp : List Str),
      (loadRules ⟨hp, lp, none⟩).threshold = 2) :=
  ⟨by decide, by decide, by decide, by decide, fun r text => rfl, fun hp lp => rfl⟩

/-- C5 counterexample: the keyword "urgent" matches "urgent urgent" at two
distinct locations, yet contributes +2 only once — the score is 2, not
2 * 2, because `re.search` only tests existence per keyword entry. -/
theorem c5_counterexample :
    matchCount ("urgent".data) (lc ("urgent urgent".data)) = 2 ∧
    score ⟨[("urgent".data)], [], 2⟩ ("urgent urgent".data) = 2 ∧
    score ⟨[("urgent".data)], [], 2⟩ ("urgent urgent".data) ≠ 2 * 2 := by
  refine ⟨by decide, by decide, by decide⟩

/-- C5 (amended): the score is per keyword entry, not per occurrence: each
entry of the flattened high-priority list that matches as a whole word
anywhere in the text adds exactly +2 (so duplicated list entries each count,
but repeated occurrences in the text do not), and each matching low-priority
entry subtracts exactly 3. -/
theorem c5_per_entry_scoring (r : KeywordRules) (text : Str) :
    score r text =
      2 * ((r.highPriorityKeywords.filter
              (fun kw => wholeWordSearch (lc kw) (lc text))).length : Int)
        - 3 * ((r.lowPriorityTerms.filter
              (fun kw => wholeWordSearch (lc kw) (lc text))).length : Int) :=
  score_eq_counts r text

/-- C4 counterexample: when the model call raises, `classify_with_llm`
does not fail — it returns a substitute response that carries a
"Low Priority" label. -/
theorem c4_counterexample :
    classify_with_llm (.ok ()) (fun _ => .error ("timeout".data)) ("p".data)
      = .ok LLM_ERROR_FALLBACK ∧
    pyIn ("low priority".data) (lc LLM_ERROR_FALLBACK) = true := by
  refine ⟨rfl, by decide⟩

/-- C4 (amended): once the client is constructed, the adapter never raises:
a failing model call is caught locally and the fixed fallback string (which
contains a Low Priority label) is returned in place of an error. -/
theorem c4_adapter_returns_fallback (mkClient : Except Str Unit)
    (invoke : Str → Except Str Str) (prompt : Str) :
    (∀ u, mkClient = .ok u →
      ∃ s, classify_with_llm mkClient invoke prompt = .ok s) ∧
    (∀ u e, mkClient = .ok u → invoke prompt = .error e →
      classify_with_llm mkClient invoke prompt = .ok LLM_ERROR_FALLBACK) := by
  constructor
  · rintro u rfl
    unfold classify_with_llm
    cases h : invoke prompt
    · exact ⟨_, rfl⟩
    · exact ⟨_, rfl⟩
  · rintro u e rfl hinv
    unfold classify_with_llm
    rw [hinv]

/-- C4 witness: concrete instance of the amended adapter property. -/
theorem c4_adapter_returns_fallback_witness :
    classify_with_llm (.ok ()) (fun _ => .error ("timeout2".data)) ("q".data)
      = .ok LLM_ERROR_FALLBACK :=
  (c4_adapter_returns_fallback (.ok ()) (fun _ => .error ("timeout2".data))
    ("q".data)).2 () ("timeout2".data) rfl rfl

/-- C7: in llm mode the unified classifier strips and lowercases the raw
response and tests for the substring "high" before "low": a response
containing "high" yields the High Priority label independently of the rule
table (the Rule Scorer does not influence the result), a response
containing "low" but not "high" yields Low Priority, and a response
containing neither yields the Rule Scorer's result on the same email. -/
theorem c7_llm_label_dispatch (adapter : Str → Except Str Str)
    (r r2 : KeywordRules) (email : Email) (raw : Str)
    (hresp : adapter (llmPrompt email) = .ok raw) :
    (pyIn ("high".data) (lc (pyStrip raw)) = true →
      classify_email_llm adapter r email = ("High Priority".data) ∧
      classify_email_llm adapter r email = classify_email_llm adapter r2 email) ∧
    (pyIn ("high".data) (lc (pyStrip raw)) = false →
      pyIn ("low".data) (lc (pyStrip raw)) = true →
      classify_email_llm adapter r email = ("Low Priority".data)) ∧
    (pyIn ("high".data) (lc (pyStrip raw)) = false →
      pyIn ("low".data) (lc (pyStrip raw)) = false →
      classify_email_llm adapter r email = classify_email_python r email) := by
  unfold classify_email_llm
  rw [hresp]
  refine ⟨fun h1 => ?_, fun h1 h2 => ?_, fun h1 h2 => ?_⟩
  · simp [h1]
  · simp [h1, h2]
  · simp [h1, h2]

/-- C7 witness: a response "High Priority" yields the high label under
empty rules. -/
theorem c7_llm_label_dispatch_witness :
    classify_email_llm (fun _ => .ok ("High Priority".data)) ⟨[], [], 2⟩ {}
      = ("High Priority".data) :=
  ((c7_llm_label_dispatch (fun _ => .ok ("High Priority".data)) ⟨[], [], 2⟩
      ⟨[], [], 2⟩ {} ("High Priority".data) rfl).1 (by decide)).1

set_option maxRecDepth 4000 in
/-- C1 counterexample: when the model backend (`llm.invoke`) raises on
every call, the adapter substitutes its fallback string, so every email is
labelled Low Priority in llm mode; for an email the Rule Scorer marks high,
the bulk output differs from the pure Rule Scorer path. -/
theorem c1_counterexample :
    classify_emails_bulk ("llm".data)
        (classify_with_llm (.ok ()) (fun _ => .error ("connection refused".data)))
        ruleSet1 [emailInterview] ≠
      classify_emails_bulk ("rule".data)
        (classify_with_llm (.ok ()) (fun _ => .error ("connection refused".data)))
        ruleSet1 [emailInterview] := by
  decide

/-- C1 (amended): when every call to the adapter itself raises (an
exception escaping `classify_with_llm`, e.g. from client construction),
`classify_emails_bulk` in llm mode equals the pure Rule Scorer path on the
same messages and rules. -/
theorem c1_adapter_raise_equals_rule_path (adapter : Str → Except Str Str)
    (hfail : ∀ prompt, ∃ e, adapter prompt = .error e)
    (r : KeywordRules) (emails : List Email) :
    classify_emails_bulk ("llm".data) adapter r emails =
      classify_emails_bulk ("rule".data) adapter r emails := by
  have h1 : (lc ("llm".data) == ("llm".data)) = true := by decide
  have h2 : (lc ("rule".data) == ("llm".data)) = false := by decide
  unfold classify_emails_bulk
  simp only [h1, h2, if_true, if_false, Bool.false_eq_true]
  apply List.map_congr_left
  intro e _
  obtain ⟨err, herr⟩ := hfail (llmPrompt e)
  unfold classify_email_llm
  rw [herr]

/-- C1 witness: a concrete always-raising adapter (client construction
fails) on a concrete email. -/
theorem c1_adapter_raise_equals_rule_path_witness :
    classify_emails_bulk ("llm".data)
        (classify_with_llm (.error ("no api key".data)) (fun _ => .ok ("x".data)))
        ruleSet1 [emailInterview] =
      classify_emails_bulk ("rule".data)
        (classify_with_llm (.error ("no api key".data)) (fun _ => .ok ("x".data)))
        ruleSet1 [emailInterview] :=
  c1_adapter_raise_equals_rule_path _ (fun _ => ⟨("no api key".data), rfl⟩) _ _

/-! Notifier lemmas. -/

theorem can_send_eq_false {now : Nat} {sender : Str} {cache c : List (Str × Nat)}
    (h : can_send_notification now sender cache = (false, c)) : c = cache := by
  unfold can_send_notification at h
  split at h
  · split at h
    · exact (Prod.mk.injEq _ _ _ _ ▸ h).2.symm
    · simp at h
  · simp at h

theorem can_send_eq_true {now : Nat} {sender : Str} {cache c : List (Str × Nat)}
    (h : can_send_notification now sender cache = (true, c)) :
    c = (sender, now) :: cache := by
  unfold can_send_notification at h
  split at h
  · split at h
    · simp at h
    · exact (Prod.mk.injEq _ _ _ _ ▸ h).2.symm
  · exact (Prod.mk.injEq _ _ _ _ ▸ h).2.symm

theorem send_run_expiry (env : TwilioEnv) (now : Nat)
    (ns subject sender priority snippet : Str) (rcv : Option Str) (st : NotifierState) :
    (send_whatsapp_message_run env now ns subject sender priority snippet rcv st).expiryNotices
      = st.expiryNotices := by
  simp only [send_whatsapp_message_run]
  split
  · rfl
  · split
    · rfl
    · split
      · rfl
      · split
        · rfl
        · rfl

theorem send_run_sends_le (env : TwilioEnv) (now : Nat)
    (ns subject sender priority snippet : Str) (rcv : Option Str) (st : NotifierState) :
    (send_whatsapp_message_run env now ns subject sender priority snippet rcv st).sends
      ≤ st.sends + 1 := by
  simp only [send_whatsapp_message_run]
  split
  · exact Nat.le_succ _
  · split
    · exact Nat.le_succ _
    · split
      · exact Nat.le_succ _
      · split
        · exact Nat.le_refl _
        · exact Nat.le_refl _

theorem send_run_blocked (env : TwilioEnv) (now last : Nat)
    (ns subject sender priority snippet : Str) (rcv : Option Str) (st : NotifierState)
    (hlook : st.cache.lookup sender = some last)
    (hcd : now - last < NOTIFICATION_COOLDOWN) :
    send_whatsapp_message_run env now ns subject sender priority snippet rcv st = st := by
  have hcs : can_send_notification now sender st.cache = (false, st.cache) := by
    unfold can_send_notification
    simp only [hlook]
    rw [if_pos hcd]
  simp only [send_whatsapp_message_run, hcs]
  split
  · rfl
  · rfl

theorem send_run_cases (env : TwilioEnv) (now : Nat)
    (ns subject sender priority snippet : Str) (rcv : Option Str) (st : NotifierState) :
    send_whatsapp_message_run env now ns subject sender priority snippet rcv st = st ∨
    ((send_whatsapp_message_run env now ns subject sender priority snippet rcv st).cache
        = (sender, now) :: st.cache ∧
      (send_whatsapp_message_run env now ns subject sender priority snippet rcv st).sends
        ≤ st.sends + 1) := by
  simp only [send_whatsapp_message_run]
  split
  · exact Or.inl rfl
  · split
    · next c hcs =>
      rw [can_send_eq_false hcs]
      exact Or.inl rfl
    · next c hcs =>
      rw [can_send_eq_true hcs]
      refine Or.inr ⟨?_, ?_⟩
      · split
        · rfl
        · split
          · rfl
          · rfl
      · split
        · exact Nat.le_succ _
        · split
          · exact Nat.le_refl _
          · exact Nat.le_refl _

/-- C3: for a fixed sender, two dispatcher calls whose times are less than
the 15-minute cooldown apart perform at most one transport send in total,
from any starting state: either the first call records the send time and the
second is rejected by `can_send_notification`, or the first call itself did
not send. -/
theorem c3_cooldown_at_most_one_send (env : TwilioEnv) (t1 t2 : Nat)
    (ns1 ns2 subj1 subj2 pri1 pri2 snip1 snip2 : Str)
    (rcv1 rcv2 : Option Str) (sender : Str) (st st1 st2 : NotifierState)
    (horder : t1 ≤ t2) (hgap : t2 - t1 < NOTIFICATION_COOLDOWN)
    (h1 : send_whatsapp_message env t1 ns1 subj1 sender pri1 snip1 rcv1 st = .ok st1)
    (h2 : send_whatsapp_message env t2 ns2 subj2 sender pri2 snip2 rcv2 st1 = .ok st2) :
    st2.sends ≤ st.sends + 1 := by
  unfold send_whatsapp_message at h1 h2
  have e1 : send_whatsapp_message_run env t1 ns1 subj1 sender pri1 snip1 rcv1 st = st1 :=
    Except.ok.inj h1
  have e2 : send_whatsapp_message_run env t2 ns2 subj2 sender pri2 snip2 rcv2 st1 = st2 :=
    Except.ok.inj h2
  rcases send_run_cases env t1 ns1 subj1 sender pri1 snip1 rcv1 st with hA | ⟨hcache, hsends⟩
  · rw [hA] at e1
    subst e1
    rw [← e2]
    exact send_run_sends_le env t2 ns2 subj2 sender pri2 snip2 rcv2 st
  · rw [e1] at hcache hsends
    have hlook : st1.cache.lookup sender = some t1 := by
      rw [hcache]
      simp [List.lookup]
    have hblock := send_run_blocked env t2 t1 ns2 subj2 sender pri2 snip2 rcv2 st1 hlook hgap
    rw [hblock] at e2
    rw [← e2]
    exact hsends

/-- C3 witness: two calls 60 seconds apart from the empty state. -/
theorem c3_cooldown_at_most_one_send_witness :
    (send_whatsapp_message_run envOk 60 [] [] ("a@x.com".data) [] [] none
        (send_whatsapp_message_run envOk 0 [] [] ("a@x.com".data) [] [] none {})).sends
      ≤ ({} : NotifierState).sends + 1 :=
  c3_cooldown_at_most_one_send envOk 0 60 [] [] [] [] [] [] [] [] none none
    ("a@x.com".data) {} _ _ (by omega) (by decide) rfl rfl

theorem notify_go_spec (env : TwilioEnv) (eI : Except Str Unit) (eT : Except Str Str)
    (clock : Nat → Nat) (cs : Nat → Str) (l : List Email) (i : Nat)
    (st : NotifierState) (alerts : Nat) :
    (run_pipeline_notify_go env eI eT clock cs l i st alerts).halted = false ∧
    (run_pipeline_notify_go env eI eT clock cs l i st alerts).fatal = none ∧
    (run_pipeline_notify_go env eI eT clock cs l i st alerts).alerts_sent = alerts + l.length ∧
    (run_pipeline_notify_go env eI eT clock cs l i st alerts).st.expiryNotices
      = st.expiryNotices := by
  induction l generalizing i st alerts with
  | nil => exact ⟨rfl, rfl, by simp [run_pipeline_notify_go], rfl⟩
  | cons e rest ih =>
    simp only [run_pipeline_notify_go, send_whatsapp_message]
    obtain ⟨ha, hb, hc, hd⟩ := ih (i + 1)
      (send_whatsapp_message_run env (clock i) (cs i) e.subject e.fromAddr
        (e.priority.getD []) e.body e.date st) (alerts + 1)
    refine ⟨ha, hb, ?_, ?_⟩
    · rw [hc]
      simp [List.length_cons]
      omega
    · rw [hd, send_run_expiry]

/-- C10: `send_whatsapp_message` always returns normally (the credential
check, cooldown check, link shortening and transport call are guarded or
wrapped), so the exception branch of the notification loop in
`run_pipeline` is unreachable: the loop never breaks, never aborts, never
emits an expiry notice, and reports `alerts_sent` equal to the number of
high-priority messages iterated, whatever the transport does. -/
theorem c10_send_total_and_alert_count :
    (∀ (env : TwilioEnv) (now : Nat) (ns subject sender priority snippet : Str)
        (rcv : Option Str) (st : NotifierState),
      ∃ st1, send_whatsapp_message env now ns subject sender priority snippet rcv st
        = .ok st1) ∧
    (∀ (env : TwilioEnv) (eI : Except Str Unit) (eT : Except Str Str)
        (clock : Nat → Nat) (cs : Nat → Str) (classified : List Email)
        (st0 : NotifierState),
      (run_pipeline_notify env eI eT clock cs classified st0).halted = false ∧
      (run_pipeline_notify env eI eT clock cs classified st0).fatal = none ∧
      (run_pipeline_notify env eI eT clock cs classified st0).alerts_sent =
        (classified.filter (fun e => e.priority == some ("High Priority".data))).length ∧
      (run_pipeline_notify env eI eT clock cs classified st0).st.expiryNotices
        = st0.expiryNotices) := by
  constructor
  · intro env now ns subject sender priority snippet rcv st
    exact ⟨_, rfl⟩
  · intro env eI eT clock cs classified st0
    have h := notify_go_spec env eI eT clock cs
      (classified.filter (fun e => e.priority == some ("High Priority".data))) 0 st0 0
    simpa [run_pipeline_notify] using h

/-- C2: evaluation at the failing input.  With both high-priority messages
and a transport that raises the Twilio 63016 session-expired error on every
send, the run emits zero expiry notices, attempts both transport sends, and
counts both as alerts: the 63016 handler in `run_pipeline` never fires
because `send_whatsapp_message` swallows the exception. -/
theorem c2_sandbox_branch_dead :
    (run_pipeline_notify envSandboxExpired (.ok ()) (.ok ("SM1".data)) (fun _ => 0)
        (fun _ => ("now".data)) [emailAlertA, emailAlertB] {}).st.expiryNotices = 0 ∧
    (run_pipeline_notify envSandboxExpired (.ok ()) (.ok ("SM1".data)) (fun _ => 0)
        (fun _ => ("now".data)) [emailAlertA, emailAlertB] {}).st.sends = 2 ∧
    (run_pipeline_notify envSandboxExpired (.ok ()) (.ok ("SM1".data)) (fun _ => 0)
        (fun _ => ("now".data)) [emailAlertA, emailAlertB] {}).alerts_sent = 2 ∧
    (run_pipeline_notify envSandboxExpired (.ok ()) (.ok ("SM1".data)) (fun _ => 0)
        (fun _ => ("now".data)) [emailAlertA, emailAlertB] {}).halted = false := by
  refine ⟨by decide, by decide, by decide, by decide⟩

/-! Dedup store lemmas. -/

/-- C6 counterexample: inserting the same id twice within one batch leaves
exactly one stored record, but the second attempt hits the UNIQUE
constraint (the existence pre-check on a fresh connection cannot see the
first, still-uncommitted row) and its `except` branch increments neither
counter: skipped stays 0, contradicting the claim that the second attempt
increments the skipped count. -/
theorem c6_counterexample :
    (insert_emails [] ("t0".data) [emailDup, emailDup]).2.2 = 0 ∧
    (insert_emails [] ("t0".data) [emailDup, emailDup]).2.1 = 1 ∧
    ((insert_emails [] ("t0".data) [emailDup, emailDup]).1.filter
        (fun row => row.id == emailDup.id)).length = 1 := by
  refine ⟨by decide, by decide, by decide⟩

/-- C6 (amended): inserting the same message id twice results in exactly
one stored record in every case; when the second attempt occurs in a later
call it increments `skipped` and not `inserted`, but when it occurs within
the same batch as the first it is caught by the UNIQUE constraint and
increments neither counter. -/
theorem c6_duplicate_insert_behavior (db : List EmailRow) (nowIso : Str) (e : Email)
    (h : email_exists db e.id = false) :
    insert_emails db nowIso [e, e] = (db ++ [emailRow nowIso e], 1, 0) ∧
    ((db ++ [emailRow nowIso e]).filter (fun row => row.id == e.id)).length = 1 ∧
    insert_emails (db ++ [emailRow nowIso e]) nowIso [e]
      = (db ++ [emailRow nowIso e], 0, 1) := by
  have hid : (emailRow nowIso e).id = e.id := rfl
  have hany : db.any (fun row => row.id == e.id) = false := h
  have hfilter : db.filter (fun row => row.id == e.id) = [] := by
    rw [List.filter_eq_nil]
    intro a ha
    have := List.any_eq_false.mp hany a ha
    simpa using this
  refine ⟨?_, ?_, ?_⟩
  · unfold insert_emails
    simp only [List.foldl_cons, List.foldl_nil, List.append_nil]
    rw [show (db.any fun row => row.id == e.id) = email_exists db e.id from rfl, h]
    simp only [Bool.false_eq_true, if_false, List.nil_append]
    have h2 : ((db ++ [emailRow nowIso e]).any fun row => row.id == e.id) = true := by
      rw [List.any_append]
      simp [hid]
    rw [h2]
    simp
  · rw [List.filter_append, hfilter, List.nil_append]
    simp [hid]
  · unfold insert_emails
    simp only [List.foldl_cons, List.foldl_nil]
    have h2 : email_exists (db ++ [emailRow nowIso e]) e.id = true := by
      unfold email_exists
      rw [List.any_append]
      simp [hid]
    rw [h2]
    simp

/-- C6 witness: the amended behavior at a concrete email and empty store. -/
theorem c6_duplicate_insert_behavior_witness :
    insert_emails [] ("t0".data) [emailDup, emailDup]
        = (([] : List EmailRow) ++ [emailRow ("t0".data) emailDup], 1, 0) ∧
    ((([] : List EmailRow) ++ [emailRow ("t0".data) emailDup]).filter
        (fun row => row.id == emailDup.id)).length = 1 ∧
    insert_emails (([] : List EmailRow) ++ [emailRow ("t0".data) emailDup]) ("t0".data) [emailDup]
        = (([] : List EmailRow) ++ [emailRow ("t0".data) emailDup], 0, 1) :=
  c6_duplicate_insert_behavior [] ("t0".data) emailDup rfl

/-! Whole-word matching lemmas, toward the score monotonicity claim. -/

theorem wordAt_of_le {text : Str} {p : Nat} (h : text.length ≤ p) : wordAt text p = false := by
  unfold wordAt
  rw [List.getElem?_eq_none h]

theorem matchesAt_parts {kw text : Str} {i : Nat} (h : matchesAt kw text i = true) :
    kw <+: text.drop i ∧ boundaryAt text i = true ∧ boundaryAt text (i + kw.length) = true := by
  unfold matchesAt at h
  simp only [Bool.and_eq_true, List.isPrefixOf_iff_prefix] at h
  exact ⟨h.1.1, h.1.2, h.2⟩

theorem matchesAt_intro {kw text : Str} {i : Nat} (h1 : kw <+: text.drop i)
    (h2 : boundaryAt text i = true) (h3 : boundaryAt text (i + kw.length) = true) :
    matchesAt kw text i = true := by
  unfold matchesAt
  simp only [Bool.and_eq_true, List.isPrefixOf_iff_prefix]
  exact ⟨⟨h1, h2⟩, h3⟩

theorem matchesAt_length_le {kw text : Str} {i : Nat} (h : matchesAt kw text i = true) :
    i + kw.length ≤ text.length := by
  obtain ⟨hpre, hb1, hb2⟩ := matchesAt_parts h
  have hlen : kw.length ≤ text.length - i := by
    simpa using hpre.length_le
  rcases kw with _ | ⟨c, cs⟩
  · simp only [List.length_nil, Nat.add_zero]
    by_contra hcon
    push_neg at hcon
    rcases i with _ | q
    · omega
    · have hq : wordAt text (q + 1) = false := wordAt_of_le (by omega)
      have hq2 : wordAt text q = false := wordAt_of_le (by omega)
      simp only [boundaryAt, wordBefore, List.length_nil, Nat.add_zero] at hb1
      rw [hq, hq2] at hb1
      simp at hb1
  · simp only [List.length_cons] at hlen ⊢
    omega

theorem wordAt_append_space_full (T τ : Str) (n : Nat) :
    wordAt (T ++ ' ' :: τ) n =
      if n < T.length then wordAt T n
      else if n = T.length then false
      else wordAt τ (n - (T.length + 1)) := by
  rcases Nat.lt_trichotomy n T.length with h | h | h
  · rw [if_pos h]
    unfold wordAt
    rw [List.getElem?_append_left h]
  · subst h
    rw [if_neg (Nat.lt_irrefl _), if_pos rfl]
    unfold wordAt
    rw [List.getElem?_append_right (Nat.le_refl _), Nat.sub_self,
      List.getElem?_cons_zero]
    decide
  · rw [if_neg (by omega), if_neg (by omega)]
    unfold wordAt
    rw [List.getElem?_append_right (by omega)]
    have hsub : n - T.length = (n - (T.length + 1)) + 1 := by omega
    rw [hsub, List.getElem?_cons_succ]

theorem boundaryAt_append_space {T τ : Str} {p : Nat} (h : p ≤ T.length) :
    boundaryAt (T ++ ' ' :: τ) p = boundaryAt T p := by
  have hw : wordAt (T ++ ' ' :: τ) p = wordAt T p := by
    rw [wordAt_append_space_full]
    rcases Nat.lt_or_ge p T.length with hlt | hge
    · rw [if_pos hlt]
    · have hp : p = T.length := by omega
      rw [if_neg (by omega), if_pos hp, hp, wordAt_of_le (Nat.le_refl _)]
  have hwb : wordBefore (T ++ ' ' :: τ) p = wordBefore T p := by
    cases p with
    | zero => rfl
    | succ q =>
      simp only [wordBefore]
      rw [wordAt_append_space_full, if_pos (by omega)]
  unfold boundaryAt
  rw [hw, hwb]

theorem matchesAt_append_space {kw T u : Str} {i : Nat} (h : matchesAt kw T i = true) :
    matchesAt kw (T ++ ' ' :: u) i = true := by
  have hle := matchesAt_length_le h
  obtain ⟨hpre, hb1, hb2⟩ := matchesAt_parts h
  apply matchesAt_intro
  · have h0 : i - T.length = 0 := by omega
    rw [List.drop_append_eq_append_drop, h0, List.drop_zero]
    exact hpre.trans (List.prefix_append _ _)
  · rw [boundaryAt_append_space (by omega)]
    exact hb1
  · rw [boundaryAt_append_space (by omega)]
    exact hb2

theorem wholeWordSearch_iff {kw text : Str} :
    wholeWordSearch kw text = true ↔ ∃ i, matchesAt kw text i = true := by
  unfold wholeWordSearch
  rw [List.any_eq_true]
  constructor
  · rintro ⟨i, _, hi⟩
    exact ⟨i, hi⟩
  · rintro ⟨i, hi⟩
    refine ⟨i, List.mem_range.mpr ?_, hi⟩
    have := matchesAt_length_le hi
    omega

theorem wholeWordSearch_append_space {kw T u : Str}
    (h : wholeWordSearch kw T = true) :
    wholeWordSearch kw (T ++ ' ' :: u) = true := by
  rw [wholeWordSearch_iff] at h ⊢
  obtain ⟨i, hi⟩ := h
  exact ⟨i, matchesAt_append_space hi⟩

theorem isSingleWord_parts {w : Str} (h : isSingleWord w = true) :
    w ≠ [] ∧ ∀ c ∈ w, isWordChar c = true := by
  unfold isSingleWord at h
  rw [Bool.and_eq_true, Bool.not_eq_true', List.all_eq_true] at h
  refine ⟨?_, h.2⟩
  intro hw
  rw [hw] at h
  simp at h

theorem prefix_getElem {kw l : Str} {i j : Nat} (hpre : kw <+: l.drop i)
    (hj : j < kw.length) : l[i + j]? = kw[j]? := by
  obtain ⟨r, hr⟩ := hpre
  rw [← List.getElem?_drop, ← hr, List.getElem?_append_left hj]

theorem wordAt_of_all {w : Str} (hall : ∀ c ∈ w, isWordChar c = true) {k : Nat}
    (hk : k < w.length) : wordAt w k = true := by
  unfold wordAt
  rw [List.getElem?_eq_getElem hk]
  exact hall _ (List.getElem_mem _)

theorem matchesAt_appended_word {T τ : Str} (hw : isSingleWord τ = true) :
    matchesAt τ (T ++ ' ' :: τ) (T.length + 1) = true := by
  obtain ⟨hne, hall⟩ := isSingleWord_parts hw
  have hpos : 0 < τ.length := List.length_pos.mpr hne
  have hdrop : (T ++ ' ' :: τ).drop (T.length + 1) = τ := by
    have h1 : (T ++ ' ' :: τ).drop (T.length + 1) = (' ' :: τ).drop 1 :=
      List.drop_append 1
    simpa using h1
  apply matchesAt_intro
  · rw [hdrop]
  · unfold boundaryAt
    have h1 : wordBefore (T ++ ' ' :: τ) (T.length + 1) = false := by
      simp only [wordBefore]
      rw [wordAt_append_space_full, if_neg (Nat.lt_irrefl _), if_pos rfl]
    have h2 : wordAt (T ++ ' ' :: τ) (T.length + 1) = true := by
      rw [wordAt_append_space_full, if_neg (by omega), if_neg (by omega)]
      have h3 : T.length + 1 - (T.length + 1) = 0 := by omega
      rw [h3]
      exact wordAt_of_all hall hpos
    rw [h1, h2]
    rfl
  · unfold boundaryAt
    have h1 : wordBefore (T ++ ' ' :: τ) (T.length + 1 + τ.length) = true := by
      have h2 : T.length + 1 + τ.length = (T.length + τ.length) + 1 := by omega
      rw [h2]
      simp only [wordBefore]
      rw [wordAt_append_space_full, if_neg (by omega), if_neg (by omega)]
      have h3 : T.length + τ.length - (T.length + 1) = τ.length - 1 := by omega
      rw [h3]
      exact wordAt_of_all hall (by omega)
    have h2 : wordAt (T ++ ' ' :: τ) (T.length + 1 + τ.length) = false := by
      rw [wordAt_append_space_full, if_neg (by omega), if_neg (by omega)]
      apply wordAt_of_le
      omega
    rw [h1, h2]
    rfl

theorem matchesAt_append_space_cases {kw T τ : Str} {i : Nat}
    (hkw : isSingleWord kw = true) (hτ : isSingleWord τ = true)
    (h : matchesAt kw (T ++ ' ' :: τ) i = true) :
    matchesAt kw T i = true ∨ kw = τ := by
  obtain ⟨hkne, hkall⟩ := isSingleWord_parts hkw
  obtain ⟨hτne, hτall⟩ := isSingleWord_parts hτ
  have hkpos : 0 < kw.length := List.length_pos.mpr hkne
  have hτpos : 0 < τ.length := List.length_pos.mpr hτne
  have hlen := matchesAt_length_le h
  have hElen : (T ++ ' ' :: τ).length = T.length + 1 + τ.length := by
    simp [List.length_append]
    omega
  obtain ⟨hpre, hb1, hb2⟩ := matchesAt_parts h
  rcases Nat.lt_or_ge (i + kw.length) (T.length + 1) with hA | hB
  · left
    apply matchesAt_intro
    · have hdropT : (T ++ ' ' :: τ).drop i = T.drop i ++ ' ' :: τ := by
        have h0 : i - T.length = 0 := by omega
        rw [List.drop_append_eq_append_drop, h0, List.drop_zero]
      rw [hdropT] at hpre
      apply List.prefix_of_prefix_length_le hpre (List.prefix_append _ _)
      simp only [List.length_drop]
      omega
    · rw [← boundaryAt_append_space (show i ≤ T.length by omega)]
      exact hb1
    · rw [← boundaryAt_append_space (show i + kw.length ≤ T.length by omega)]
      exact hb2
  · have hnotspace : ¬ (i ≤ T.length ∧ T.length < i + kw.length) := by
      rintro ⟨hle, hlt⟩
      have hj : T.length - i < kw.length := by omega
      have h1 : (T ++ ' ' :: τ)[i + (T.length - i)]? = kw[T.length - i]? :=
        prefix_getElem hpre hj
      have h2 : i + (T.length - i) = T.length := by omega
      rw [h2] at h1
      have h3 : (T ++ ' ' :: τ)[T.length]? = some ' ' := by
        rw [List.getElem?_append_right (Nat.le_refl _), Nat.sub_self,
          List.getElem?_cons_zero]
      rw [h3] at h1
      have hmem : ' ' ∈ kw := List.getElem?_mem h1.symm
      have hword := hkall ' ' hmem
      exact absurd hword (by decide)
    have hige : T.length + 1 ≤ i := by
      by_contra hcon
      push_neg at hcon
      exact hnotspace ⟨by omega, by omega⟩
    rcases Nat.eq_or_lt_of_le hige with hieq | higt
    · subst hieq
      have hdropτ : (T ++ ' ' :: τ).drop (T.length + 1) = τ := by
        have h1 : (T ++ ' ' :: τ).drop (T.length + 1) = (' ' :: τ).drop 1 :=
          List.drop_append 1
        simpa using h1
      rw [hdropτ] at hpre
      rcases Nat.eq_or_lt_of_le hpre.length_le with hleq | hllt
      · exact Or.inr (hpre.eq_of_length hleq)
      · exfalso
        have hwb : wordBefore (T ++ ' ' :: τ) (T.length + 1 + kw.length) = true := by
          have hik : T.length + 1 + kw.length = (T.length + kw.length) + 1 := by omega
          rw [hik]
          simp only [wordBefore]
          rw [wordAt_append_space_full, if_neg (by omega), if_neg (by omega)]
          have h2 : T.length + kw.length - (T.length + 1) = kw.length - 1 := by omega
          rw [h2]
          exact wordAt_of_all hτall (by omega)
        have hwa : wordAt (T ++ ' ' :: τ) (T.length + 1 + kw.length) = true := by
          rw [wordAt_append_space_full, if_neg (by omega), if_neg (by omega)]
          have h2 : T.length + 1 + kw.length - (T.length + 1) = kw.length := by omega
          rw [h2]
          exact wordAt_of_all hτall hllt
        unfold boundaryAt at hb2
        rw [hwb, hwa] at hb2
        simp at hb2
    · exfalso
      have hile : i + kw.length ≤ T.length + 1 + τ.length := by
        rw [hElen] at hlen
        exact hlen
      have hwb : wordBefore (T ++ ' ' :: τ) i = true := by
        have hik : i = (i - 1) + 1 := by omega
        rw [hik]
        simp only [wordBefore]
        rw [wordAt_append_space_full, if_neg (by omega), if_neg (by omega)]
        exact wordAt_of_all hτall (by omega)
      have hwa : wordAt (T ++ ' ' :: τ) i = true := by
        have h1 : (T ++ ' ' :: τ)[i + 0]? = kw[0]? := prefix_getElem hpre hkpos
        rw [Nat.add_zero] at h1
        unfold wordAt
        rw [h1, List.getElem?_eq_getElem hkpos]
        exact hkall _ (List.getElem_mem _)
      unfold boundaryAt at hb1
      rw [hwb, hwa] at hb1
      simp at hb1

theorem wholeWordSearch_append_space_cases {kw T τ : Str}
    (hkw : isSingleWord kw = true) (hτ : isSingleWord τ = true)
    (h : wholeWordSearch kw (T ++ ' ' :: τ) = true) :
    wholeWordSearch kw T = true ∨ kw = τ := by
  rw [wholeWordSearch_iff] at h
  obtain ⟨i, hi⟩ := h
  rcases matchesAt_append_space_cases hkw hτ hi with h2 | h2
  · exact Or.inl (wholeWordSearch_iff.mpr ⟨i, h2⟩)
  · exact Or.inr h2

theorem wholeWordSearch_appended_word {T τ : Str} (hτ : isSingleWord τ = true) :
    wholeWordSearch τ (T ++ ' ' :: τ) = true :=
  wholeWordSearch_iff.mpr ⟨T.length + 1, matchesAt_appended_word hτ⟩

/-! Filter-counting lemmas. -/

theorem length_filter_mono {α : Type} (l : List α) (p q : α → Bool)
    (h : ∀ a ∈ l, p a = true → q a = true) :
    (l.filter p).length ≤ (l.filter q).length := by
  induction l with
  | nil => simp
  | cons x xs ih =>
    have hx := h x (List.mem_cons_self _ _)
    have ihx := ih (fun a ha hp => h a (List.mem_cons_of_mem _ ha) hp)
    by_cases hp : p x = true
    · rw [List.filter_cons_of_pos hp, List.filter_cons_of_pos (hx hp)]
      simpa using ihx
    · rw [List.filter_cons_of_neg (by simpa using hp)]
      by_cases hq : q x = true
      · rw [List.filter_cons_of_pos hq]
        simp only [List.length_cons]
        omega
      · rw [List.filter_cons_of_neg (by simpa using hq)]
        exact ihx

theorem length_filter_lt {α : Type} (l : List α) (p q : α → Bool) (x : α)
    (hx : x ∈ l) (hpx : p x = false) (hqx : q x = true)
    (h : ∀ a ∈ l, p a = true → q a = true) :
    (l.filter p).length + 1 ≤ (l.filter q).length := by
  induction l with
  | nil => cases hx
  | cons y ys ih =>
    have hmono := length_filter_mono ys p q
      (fun a ha hp => h a (List.mem_cons_of_mem _ ha) hp)
    rcases List.mem_cons.mp hx with rfl | hmem
    · rw [List.filter_cons_of_neg (by simp [hpx]), List.filter_cons_of_pos hqx]
      simp only [List.length_cons]
      omega
    · have ihy := ih hmem (fun a ha hp => h a (List.mem_cons_of_mem _ ha) hp)
      by_cases hp : p y = true
      · rw [List.filter_cons_of_pos hp,
          List.filter_cons_of_pos (h y (List.mem_cons_self _ _) hp)]
        simp only [List.length_cons]
        omega
      · rw [List.filter_cons_of_neg (by simpa using hp)]
        by_cases hq : q y = true
        · rw [List.filter_cons_of_pos hq]
          simp only [List.length_cons]
          omega
        · rw [List.filter_cons_of_neg (by simpa using hq)]
          exact ihy

theorem length_filter_or {α : Type} (l : List α) (p q : α → Bool) :
    (l.filter (fun a => p a || q a)).length
      ≤ (l.filter p).length + (l.filter q).length := by
  induction l with
  | nil => simp
  | cons x xs ih =>
    by_cases hp : p x = true
    · by_cases hq : q x = true
      · simp [List.filter_cons, hp, hq]
        omega
      · simp [List.filter_cons, hp, hq]
        omega
    · by_cases hq : q x = true
      · simp [List.filter_cons, hp, hq]
        omega
      · simp [List.filter_cons, hp, hq]
        omega

theorem lc_append_space (a b : Str) : lc (a ++ ' ' :: b) = lc a ++ ' ' :: lc b := by
  unfold lc
  rw [List.map_append, List.map_cons]
  have h : Char.toLower ' ' = ' ' := by decide
  rw [h]

/-- C9 counterexample: with the multi-word high keywords "c b" and "x c b"
and low term "b", appending the low term "b" to the text "x c" raises the
score from 0 to 1 — both high keywords start matching (+4) while the low
term subtracts only 3. -/
theorem c9_counterexample :
    score rulesMultiWord (("x c".data) ++ ' ' :: ("b".data)) = 1 ∧
    score rulesMultiWord ("x c".data) = 0 ∧
    ¬ (score rulesMultiWord (("x c".data) ++ ' ' :: ("b".data)) ≤
        score rulesMultiWord ("x c".data)) := by
  refine ⟨by decide, by decide, by decide⟩

/-- C9 (amended): appending (space-separated) a low-priority term of the
table to a text never increases the score, provided the lowercased
high-priority keywords are single words (nonempty, word characters only),
the lowercased term is a single word, and at most one high-priority entry
equals the term: the term then matches the extended text, any high keyword
matching the extended but not the original text must equal the term, and
-3 outweighs the at most one +2. -/
theorem c9_low_term_append_monotone (r : KeywordRules) (text t : Str)
    (hhigh : ∀ kw ∈ r.highPriorityKeywords, isSingleWord (lc kw) = true)
    (hmem : t ∈ r.lowPriorityTerms)
    (ht : isSingleWord (lc t) = true)
    (hdup : (r.highPriorityKeywords.filter (fun kw => lc kw == lc t)).length ≤ 1) :
    score r (text ++ ' ' :: t) ≤ score r text := by
  rw [score_eq_counts, score_eq_counts, lc_append_space]
  by_cases hcase : wholeWordSearch (lc t) (lc text) = true
  · have hH : ((r.highPriorityKeywords.filter
          (fun kw => wholeWordSearch (lc kw) (lc text ++ ' ' :: lc t))).length
        ≤ (r.highPriorityKeywords.filter
          (fun kw => wholeWordSearch (lc kw) (lc text))).length) := by
      apply length_filter_mono
      intro kw hk hpe
      rcases wholeWordSearch_append_space_cases (hhigh kw hk) ht hpe with h2 | h2
      · exact h2
      · rw [h2]
        exact hcase
    have hL : ((r.lowPriorityTerms.filter
          (fun kw => wholeWordSearch (lc kw) (lc text))).length
        ≤ (r.lowPriorityTerms.filter
          (fun kw => wholeWordSearch (lc kw) (lc text ++ ' ' :: lc t))).length) := by
      apply length_filter_mono
      intro kw hk hp
      exact wholeWordSearch_append_space hp
    omega
  · have hor : ((r.highPriorityKeywords.filter
          (fun kw => wholeWordSearch (lc kw) (lc text ++ ' ' :: lc t))).length
        ≤ (r.highPriorityKeywords.filter
            (fun kw => wholeWordSearch (lc kw) (lc text) || (lc kw == lc t))).length) := by
      apply length_filter_mono
      intro kw hk hpe
      rcases wholeWordSearch_append_space_cases (hhigh kw hk) ht hpe with h2 | h2
      · rw [h2]
        simp
      · rw [h2]
        simp
    have hsplit := length_filter_or r.highPriorityKeywords
      (fun kw => wholeWordSearch (lc kw) (lc text)) (fun kw => lc kw == lc t)
    have hL : ((r.lowPriorityTerms.filter
          (fun kw => wholeWordSearch (lc kw) (lc text))).length + 1
        ≤ (r.lowPriorityTerms.filter
          (fun kw => wholeWordSearch (lc kw) (lc text ++ ' ' :: lc t))).length) := by
      apply length_filter_lt _ _ _ t hmem
      · simpa using hcase
      · exact wholeWordSearch_appended_word ht
      · intro a ha hp
        exact wholeWordSearch_append_space hp
    omega

/-- C9 witness: appending "newsletter" to "hello" under single-word rules. -/
theorem c9_low_term_append_monotone_witness :
    score rulesSingleWord (("hello".data) ++ ' ' :: ("newsletter".data))
      ≤ score rulesSingleWord ("hello".data) :=
  c9_low_term_append_monotone rulesSingleWord ("hello".data) ("newsletter".data)
    (by decide) (by decide) (by decide) (by decide)
